import Mathlib

/-!
# mc_vrep: the simulation synchronisation loop

A shallow embedding of `src/vrep_simulation.cpp` (struct `VREPSimulationImpl`) and of
`src/mc_vrep.cpp` (`simThread`, `main`), followed by theorems about frame skipping,
disturbance injection, joint-array slicing and configuration validation.

Conventions of the embedding.

* `double` values are rationals (`ℚ`) and the arithmetic on them is exact, with one
  exception: the quotient that the constructor rounds to the frame skip is first
  rounded to the nearest double (`toDouble`), as `std::round` is applied to the double
  quotient and its result changes with the last bit of it.  `size_t` values are natural
  numbers.  The iteration counter is only ever incremented by one per call, it is not
  wrapped at `2^64`.
* A `std::map<std::string, V>` is a list of entries kept strictly ascending in the key,
  so that iterating the entries visits them in the order the C++ container does.
* Calls made to the simulator remote API (`vrep.*`) and to `controller.run()` are
  recorded, in program order, in a list of `Call`s returned next to the new state.
* What the outside world answers during a call (the state returned by
  `vrep.getSimulationState`, the effect of `controller.run()`, the answers of the
  command line interface) is an argument of the embedded function.
* The test `iter % frameskip` with a frame skip of 0 is an integer division by zero in
  the source; the theorems about `nextSimulationStep` assume a frame skip of at least 1.
* Reading a `std::vector` out of range is undefined behaviour in the source; the model
  reads a default value there, and the slicing theorems show that no such read happens
  when the array sizes agree with the joint counts.
* Left out of the model: the registration of the interface elements in the
  constructor, `startSimulation` (it leaves the iteration counter at 0), the warnings
  that `nextSimulationStep` prints from the two readings of the simulation time, the
  conversion of the base rotation to a quaternion (the rotation itself is stored), and
  what `posW` and `forwardVelocity` recompute inside the real robot.
-/

namespace McVrep

/-! ## Geometry and force types -/

/-- An `Eigen::Vector3d`. -/
structure Vector3d where
  x : ℚ
  y : ℚ
  z : ℚ
deriving DecidableEq, Inhabited

/-- An `Eigen::Matrix3d`, by rows. -/
structure Matrix3d where
  r0 : Vector3d
  r1 : Vector3d
  r2 : Vector3d
deriving DecidableEq, Inhabited

/-- An `sva::ForceVecd`: a couple and a force. -/
structure ForceVecd where
  couple : Vector3d
  force : Vector3d
deriving DecidableEq, Inhabited

/-- An `sva::MotionVecd`: an angular and a linear velocity. -/
structure MotionVecd where
  angular : Vector3d
  linear : Vector3d
deriving DecidableEq, Inhabited

/-- An `sva::PTransformd`: a rotation and a translation. -/
structure PTransformd where
  rotation : Matrix3d
  translation : Vector3d
deriving DecidableEq, Inhabited

/-- Division of a vector by a scalar, component by component. -/
def Vector3d.div (v : Vector3d) (d : ℚ) : Vector3d :=
  ⟨v.x / d, v.y / d, v.z / d⟩

/-- The `operator/` of `sva::ForceVecd`: both parts are divided by the scalar. -/
def ForceVecd.div (f : ForceVecd) (d : ℚ) : ForceVecd :=
  ⟨f.couple.div d, f.force.div d⟩

instance : HDiv ForceVecd ℚ ForceVecd := ⟨ForceVecd.div⟩

/-! ## Rounding to `double` -/

/-- The power `2 ^ k` for an integer `k`. -/
def pow2 (k : ℤ) : ℚ :=
  if 0 ≤ k then ((2 ^ k.toNat : ℕ) : ℚ) else 1 / ((2 ^ (-k).toNat : ℕ) : ℚ)

/-- The number of binary digits of `n`, with `fuel` halvings at hand. -/
def bitLengthAux : Nat → Nat → Nat
  | 0, _ => 0
  | fuel + 1, n => if n = 0 then 0 else bitLengthAux fuel (n / 2) + 1

/-- The number of binary digits of `n`; `n` halvings are always enough. -/
def bitLength (n : Nat) : Nat := bitLengthAux n n

/-- The integer `e` with `2 ^ e ≤ |x| < 2 ^ (e + 1)`, for `x` other than 0: it is the
difference of the bit lengths of the numerator and of the denominator, or one less. -/
def floorLog2 (x : ℚ) : ℤ :=
  let d : ℤ := (bitLength x.num.natAbs : ℤ) - (bitLength x.den : ℤ)
  if pow2 d ≤ |x| then d else d - 1

/-- The nearest integer, the even one of the two at a tie. -/
def roundHalfEven (y : ℚ) : ℤ :=
  let f := ⌊y⌋
  if y - f < 1 / 2 then f
  else if 1 / 2 < y - f then f + 1
  else if f % 2 = 0 then f else f + 1

/-- The IEEE 754 binary64 number nearest to `x` (ties to even): a multiple of
`2 ^ (e - 52)` where `e` is the binary exponent of `x`, and not less than -1022, so
that tiny values round to subnormal numbers or to 0.  A value beyond the largest double
is rounded the same way instead of becoming an infinity. -/
def toDouble (x : ℚ) : ℚ :=
  if x = 0 then 0
  else
    let quantum := pow2 (max (floorLog2 x) (-1022) - 52)
    let m := roundHalfEven (|x| / quantum)
    if 0 ≤ x then m * quantum else -(m * quantum)

/-! ## `std::map<std::string, V>` -/

/-- Insertion of `(k, v)` in a list of entries ascending in the key; an entry that
already has key `k` is replaced. -/
def insertEntry {V : Type} (k : String) (v : V) : List (String × V) → List (String × V)
  | [] => [(k, v)]
  | e :: rest =>
    if k < e.1 then (k, v) :: e :: rest
    else if e.1 < k then e :: insertEntry k v rest
    else (k, v) :: rest

/-- Removal of the entries with key `k`. -/
def eraseEntry {V : Type} (k : String) (es : List (String × V)) : List (String × V) :=
  es.filter (fun e => decide (e.1 ≠ k))

/-- The keys that `insertEntry` produces are the new key and the old keys. -/
theorem mem_insertEntry {V : Type} (k : String) (v : V) (es : List (String × V))
    (e : String × V) (h : e ∈ insertEntry k v es) : e = (k, v) ∨ e ∈ es := by
  induction es with
  | nil => simpa [insertEntry] using h
  | cons a rest ih =>
    unfold insertEntry at h
    split_ifs at h with h1 h2
    · rcases List.mem_cons.1 h with h | h
      · exact Or.inl h
      · exact Or.inr h
    · rcases List.mem_cons.1 h with h | h
      · exact Or.inr (h ▸ List.mem_cons_self _ _)
      · rcases ih h with h | h
        · exact Or.inl h
        · exact Or.inr (List.mem_cons_of_mem _ h)
    · rcases List.mem_cons.1 h with h | h
      · exact Or.inl h
      · exact Or.inr (List.mem_cons_of_mem _ h)

/-- Insertion keeps the entries strictly ascending in the key. -/
theorem pairwise_insertEntry {V : Type} (k : String) (v : V) (es : List (String × V))
    (h : es.Pairwise (fun a b => a.1 < b.1)) :
    (insertEntry k v es).Pairwise (fun a b => a.1 < b.1) := by
  induction es with
  | nil => simp [insertEntry]
  | cons a rest ih =>
    have hrest := (List.pairwise_cons.1 h).2
    have ha := (List.pairwise_cons.1 h).1
    unfold insertEntry
    split_ifs with h1 h2
    · refine List.pairwise_cons.2 ⟨?_, h⟩
      intro b hb
      rcases List.mem_cons.1 hb with hb | hb
      · exact hb ▸ h1
      · exact lt_trans h1 (ha b hb)
    · refine List.pairwise_cons.2 ⟨?_, ih hrest⟩
      intro b hb
      rcases mem_insertEntry k v rest b hb with hb | hb
      · exact hb ▸ h2
      · exact ha b hb
    · have hk : k = a.1 := le_antisymm (not_lt.1 h2) (not_lt.1 h1)
      refine List.pairwise_cons.2 ⟨?_, hrest⟩
      intro b hb
      exact hk ▸ ha b hb

/-- A `std::map<std::string, V>`: its entries, strictly ascending in the key. -/
structure StdMap (V : Type) where
  entries : List (String × V)
  sorted : entries.Pairwise (fun a b => a.1 < b.1)

namespace StdMap

variable {V : Type}

/-- The empty map. -/
def empty : StdMap V := ⟨[], List.Pairwise.nil⟩

instance : Inhabited (StdMap V) := ⟨empty⟩

/-- The assignment `m[k] = v`. -/
def assign (m : StdMap V) (k : String) (v : V) : StdMap V :=
  ⟨insertEntry k v m.entries, pairwise_insertEntry k v m.entries m.sorted⟩

/-- The member `emplace`: inserts only when the key is absent. -/
def emplace (m : StdMap V) (k : String) (v : V) : StdMap V :=
  if m.entries.any (fun e => decide (e.1 = k)) then m else m.assign k v

/-- The member `count`: the number of entries with key `k` (0 or 1). -/
def count (m : StdMap V) (k : String) : Nat :=
  m.entries.countP (fun e => decide (e.1 = k))

/-- The member `erase`, by key. -/
def erase (m : StdMap V) (k : String) : StdMap V :=
  ⟨eraseEntry k m.entries, m.sorted.filter _⟩

/-- The member `clear`. -/
def clear (_m : StdMap V) : StdMap V := empty

end StdMap

/-! ## The controller side (`mc_rtc`), as far as `VREPSimulationImpl` touches it -/

/-- The joint types of `rbd::Joint` that the code distinguishes. -/
inductive JointType where
  | Rev
  | Prism
  | Spherical
  | Planar
  | Cylindrical
  | Free
  | Fixed
deriving DecidableEq, Inhabited

/-- An `rbd::Joint`: its name and its type. -/
structure Joint where
  name : String
  type : JointType
deriving DecidableEq, Inhabited

/-- The `bodySensor()` of a robot: the four quantities `updateData` writes. -/
structure BodySensor where
  position : Vector3d
  orientation : Matrix3d
  linearVelocity : Vector3d
  angularVelocity : Vector3d
deriving DecidableEq, Inhabited

/-- The part of `rbd::MultiBodyConfig` that `updateData` writes: one vector per joint. -/
structure MultiBodyConfig where
  q : List (List ℚ)
  alpha : List (List ℚ)
deriving DecidableEq, Inhabited

/-- An `mc_rbdyn::Robot`: the accessors of the robot that the simulation code uses. -/
structure Robot where
  name : String
  refJointOrder : List String
  forceSensors : List String
  mb : List Joint
  mbc : MultiBodyConfig
  encoderValues : List ℚ
  jointTorques : List ℚ
  bodySensor : BodySensor
  posW : PTransformd
deriving DecidableEq, Inhabited

/-- The member `hasJoint`: the multibody has a joint of that name. -/
def Robot.hasJoint (r : Robot) (jN : String) : Bool :=
  r.mb.any (fun j => decide (j.name = jN))

/-- The member `jointIndexByName`: the position of the joint in the multibody. -/
def Robot.jointIndexByName (r : Robot) (jN : String) : Nat :=
  r.mb.findIdx (fun j => decide (j.name = jN))

/-- The test `robot.mb().joint(0).type() == rbd::Joint::Type::Free`. -/
def Robot.firstJointIsFree (r : Robot) : Bool :=
  match r.mb with
  | [] => false
  | j :: _ => decide (j.type = JointType.Free)

/-- The assignment `v[i][0] = x` on a vector of vectors. -/
def setFirst (v : List (List ℚ)) (i : Nat) (x : ℚ) : List (List ℚ) :=
  v.set i ((v.getD i []).set 0 x)

/-- A `vrep::VREP::ForceSensor` reading. -/
structure ForceSensor where
  force : Vector3d
  torque : Vector3d
deriving DecidableEq, Inhabited

/-- The `mc_control::MCGlobalController`: its timestep (`timestep()`, which is also the
`timeStep` of its controller), the robots of the controller, their real-robot copies,
and the sensor inputs the simulation pushes into it. -/
structure MCGlobalController where
  timestep : ℚ
  running : Bool
  robots : List Robot
  realRobots : List Robot
  wrenches : StdMap (StdMap ForceVecd)
  sensorLinearAcceleration : Vector3d

/-- What `vrep.getSimulationState` writes through its reference arguments. -/
structure SimulationState where
  jQs : List ℚ
  jTorques : List ℚ
  fSensors : StdMap ForceSensor
  accel : Vector3d
  gyro : Vector3d
  basePoses : List PTransformd
  baseVels : List MotionVecd

/-- A call made to the simulator remote API, or to `controller.run()`. -/
inductive Call where
  | getSimulationTime
  | getSimulationState
  | addForce (body : String) (force : ForceVecd)
  | controllerRun
  | setRobotTargetTorque (robot : Robot) (suffix : String)
  | setRobotTargetVelocity (robot : Robot) (suffix : String)
  | setRobotTargetConfiguration (robot : Robot) (suffix : String)
  | nextSimulationStep
  | stopSimulation
deriving DecidableEq

/-- The body a call applies a force to, when it is an `addForce`. -/
def Call.forceBody : Call → Option String
  | Call.addForce b _ => some b
  | _ => none

/-! ## Configuration -/

/-- An entry of `Extras`: the index of the robot and the suffix of its names. -/
structure ExtraRobot where
  index : Nat
  suffix : String
deriving DecidableEq, Inhabited

/-- The `VREPSimulationConfiguration` that `main` fills and the constructor reads: the
members that the two of them use. -/
structure VREPSimulationConfiguration where
  host : String
  port : Int
  timeout : Int
  waitUntilConnected : Bool
  doNotReconnect : Bool
  commThreadCycleInMs : Int
  simulationTimestep : ℚ
  stepByStep : Bool
  velocityControl : Bool
  torqueControl : Bool
  extras : List ExtraRobot
deriving DecidableEq, Inhabited

/-! ## `VREPSimulationImpl` -/

/-- The data members of `VREPSimulationImpl` (the transport object and the command
line interface apart). -/
structure VREPSimulationImpl where
  controller : MCGlobalController
  velocityControl : Bool
  torqueControl : Bool
  extraRobots : List ExtraRobot
  rIdx : List Nat
  suffixes : List String
  baseNames : List String
  joints : List String
  jQs : List ℚ
  jTorques : List ℚ
  fSensors : StdMap ForceSensor
  accel : Vector3d
  gyro : Vector3d
  basePoses : List PTransformd
  baseVels : List MotionVecd
  external_force : StdMap ForceVecd
  impact_force : StdMap ForceVecd
  simulationTimestep : ℚ
  iter : Nat
  frameskip : Nat

namespace VREPSimulationImpl

/-- The member `wrenches`: for every force sensor of the robot, the reading the
simulator gave under the suffixed name, keyed by the unsuffixed name. -/
def wrenches (fSensors : StdMap ForceSensor) (robot : Robot) (suffix : String) :
    StdMap ForceVecd :=
  robot.forceSensors.foldl
    (fun res fs =>
      fSensors.entries.foldl
        (fun res fIn =>
          if fIn.1 = fs ++ suffix then res.emplace fs ⟨fIn.2.torque, fIn.2.force⟩ else res)
        res)
    StdMap.empty

/-- The first inner loop of `updateData`: `n` values of `xs` from index `jQi` on. -/
def readSlice (xs : List ℚ) (jQi n : Nat) : List ℚ :=
  (List.range n).map (fun j => xs.getD (jQi + j) 0)

/-- The second inner loop of `updateData`, from joint number `j` on: for every joint
of the reference order that the robot has, the position and the finite-difference
velocity are written into the real robot. -/
def updateJoints (robot : Robot) (encoders prevEncoders : List ℚ) :
    List String → Nat → Robot → Robot
  | [], _, real_robot => real_robot
  | jN :: rest, j, real_robot =>
    if robot.hasJoint jN then
      let jIndex := robot.jointIndexByName jN
      let q := setFirst real_robot.mbc.q jIndex (encoders.getD j 0)
      let alpha := setFirst real_robot.mbc.alpha jIndex
        ((encoders.getD j 0 - prevEncoders.getD j 0) / 0.005)
      updateJoints robot encoders prevEncoders rest (j + 1)
        { real_robot with mbc := { q := q, alpha := alpha } }
    else
      updateJoints robot encoders prevEncoders rest (j + 1) real_robot

/-- The body of the outer loop of `updateData` for binding `i`, which is robot `r`
of the controller, with the running offset `jQi`.  As in the source, the local slice
`torques` is filled and not used: `jointTorques` receives the member `jTorques`. -/
def updateRobot (s : VREPSimulationImpl) (i r jQi : Nat) (c : MCGlobalController) :
    MCGlobalController :=
  match c.robots[r]?, c.realRobots[r]? with
  | some robot0, some real0 =>
    let basePose := s.basePoses.getD i default
    let baseVel := s.baseVels.getD i default
    let n := robot0.refJointOrder.length
    let encoders := readSlice s.jQs jQi n
    let _torques := readSlice s.jTorques jQi n
    let prevEncoders0 := robot0.encoderValues
    let robot : Robot :=
      { robot0 with
        bodySensor :=
          { position := basePose.translation
            orientation := basePose.rotation
            linearVelocity := baseVel.linear
            angularVelocity := baseVel.angular }
        encoderValues := encoders
        jointTorques := s.jTorques }
    let w := wrenches s.fSensors robot (s.suffixes.getD i "")
    let real1 : Robot := { real0 with encoderValues := encoders }
    let prevEncoders := if prevEncoders0.length = 0 then robot.encoderValues else prevEncoders0
    let real2 : Robot :=
      if robot.firstJointIsFree then
        { real1 with
          mbc :=
            { real1.mbc with
              alpha := real1.mbc.alpha.set 0
                [baseVel.angular.x, baseVel.angular.y, baseVel.angular.z,
                 baseVel.linear.x, baseVel.linear.y, baseVel.linear.z] } }
      else real1
    let real3 := updateJoints robot encoders prevEncoders robot.refJointOrder 0 real2
    let real4 : Robot := { real3 with posW := basePose }
    { c with
      robots := c.robots.set r robot
      realRobots := c.realRobots.set r real4
      wrenches := c.wrenches.assign robot.name w }
  | _, _ => c

/-- The value of `robot.refJointOrder().size()` for robot `r` of the controller. -/
def jointCount (c : MCGlobalController) (r : Nat) : Nat :=
  ((c.robots[r]?).map (fun robot => robot.refJointOrder.length)).getD 0

/-- The outer loop of `updateData` over the bindings still to visit, the next one
being binding `i`, with the running offset `jQi`. -/
def updateDataFrom (s : VREPSimulationImpl) :
    List Nat → Nat → Nat → MCGlobalController → MCGlobalController
  | [], _, _, c => c
  | r :: rest, i, jQi, c =>
    updateDataFrom s rest (i + 1) (jQi + jointCount c r) (updateRobot s i r jQi c)

/-- The member `updateData`: the simulator state held in the members is written into
the robots of the controller. -/
def updateData (s : VREPSimulationImpl) : VREPSimulationImpl :=
  let c := updateDataFrom s s.rIdx 0 0 s.controller
  { s with controller := { c with sensorLinearAcceleration := s.accel } }

/-- The member `setExternalForce`. -/
def setExternalForce (s : VREPSimulationImpl) (body_respondable : String)
    (force : ForceVecd) : VREPSimulationImpl × Bool :=
  ({ s with external_force := s.external_force.assign body_respondable force }, true)

/-- The member `removeExternalForce`. -/
def removeExternalForce (s : VREPSimulationImpl) (body_respondable : String) :
    VREPSimulationImpl × Bool :=
  if s.external_force.count body_respondable ≠ 0 then
    ({ s with external_force := s.external_force.erase body_respondable }, true)
  else (s, false)

/-- The member `applyImpact`. -/
def applyImpact (s : VREPSimulationImpl) (body_respondable : String)
    (impact : ForceVecd) : VREPSimulationImpl × Bool :=
  ({ s with
      impact_force :=
        s.impact_force.assign body_respondable (impact / s.controller.timestep) },
    true)

/-- The calls of the loop over `external_force` in `nextSimulationStep`. -/
def externalForceCalls (s : VREPSimulationImpl) : List Call :=
  s.external_force.entries.map (fun f => Call.addForce f.1 f.2)

/-- The calls of the loop over `impact_force` in `nextSimulationStep`. -/
def impactForceCalls (s : VREPSimulationImpl) : List Call :=
  s.impact_force.entries.map (fun f => Call.addForce f.1 f.2)

/-- The force-application phase of a control tick: both loops, then
`impact_force.clear()`. -/
def flush (s : VREPSimulationImpl) : VREPSimulationImpl × List Call :=
  ({ s with impact_force := s.impact_force.clear },
    externalForceCalls s ++ impactForceCalls s)

/-- The calls of the actuation loop that follows a successful `controller.run()`, over
the bindings still to visit, the next one being binding `i`. -/
def actuationCalls (s : VREPSimulationImpl) : List Nat → Nat → List Call
  | [], _ => []
  | r :: rest, i =>
    let suffix := s.suffixes.getD i ""
    let call :=
      match s.controller.robots[r]? with
      | some robot =>
        if s.torqueControl then [Call.setRobotTargetTorque robot suffix]
        else if s.velocityControl then [Call.setRobotTargetVelocity robot suffix]
        else [Call.setRobotTargetConfiguration robot suffix]
      | none => []
    call ++ actuationCalls s rest (i + 1)

/-- The state `getSimulationState` returned is stored in the members. -/
def storeState (s : VREPSimulationImpl) (st : SimulationState) : VREPSimulationImpl :=
  { s with
    jQs := st.jQs
    jTorques := st.jTorques
    fSensors := st.fSensors
    accel := st.accel
    gyro := st.gyro
    basePoses := st.basePoses
    baseVels := st.baseVels }

/-- What the outside world does during one call of `nextSimulationStep`: the state the
simulator returns and the effect and result of `controller.run()`. -/
structure StepInput where
  state : SimulationState
  run : MCGlobalController → MCGlobalController × Bool

/-- The branch of `nextSimulationStep` taken when `iter % frameskip == 0`. -/
def controlTick (s : VREPSimulationImpl) (e : StepInput) : VREPSimulationImpl × List Call :=
  let s1 := storeState s e.state
  let flushed := flush s1
  let s3 := updateData flushed.1
  let ran := e.run s3.controller
  let s4 := { s3 with controller := ran.1 }
  (s4, [Call.getSimulationState] ++ flushed.2 ++ [Call.controllerRun]
        ++ (if ran.2 then actuationCalls s4 s4.rIdx 0 else []))

/-- The member `nextSimulationStep`.  The two readings of the simulation time only feed
warnings on the error stream, which are not part of the model. -/
def nextSimulationStep (s : VREPSimulationImpl) (e : StepInput) :
    VREPSimulationImpl × List Call :=
  let r := if s.iter % s.frameskip = 0 then controlTick s e else (s, [])
  ({ r.1 with iter := r.1.iter + 1 },
    [Call.getSimulationTime] ++ r.2 ++ [Call.getSimulationTime, Call.nextSimulationStep])

/-- The member `stopSimulation`. -/
def stopSimulation (s : VREPSimulationImpl) : VREPSimulationImpl × List Call :=
  (s, [Call.stopSimulation])

/-- The member `updateGUI`: one `controller.run()` with `running` lowered. -/
def updateGUI (s : VREPSimulationImpl)
    (run : MCGlobalController → MCGlobalController × Bool) :
    VREPSimulationImpl × List Call :=
  let c := (run { s.controller with running := false }).1
  ({ s with controller := { c with running := true } }, [Call.controllerRun])

/-- The frame skip the constructor computes, `std::round(ctl.timeStep /
simulationTimestep)`: the two operands are doubles (a rational that is not one stands
for the double nearest to it, as a decimal literal does), their quotient is the double
nearest to the exact quotient, and `std::round` rounds that double to the nearest
integer, halves away from zero.  The conversion of the rounded value to `size_t` is
defined for values from 0 to `2^64 - 1` only; outside of them, and when the division is
by zero, there is no result. -/
def computeFrameskip (timeStep simulationTimestep : ℚ) : Option Nat :=
  if toDouble simulationTimestep = 0 then none
  else
    let x := toDouble (toDouble timeStep / toDouble simulationTimestep)
    let r : ℤ := if 0 ≤ x then ⌊x + 1 / 2⌋ else ⌈x - 1 / 2⌉
    if 0 ≤ r ∧ r < 2 ^ 64 then some r.toNat else none

/-- The constructor, once the interface elements are registered: the members are
initialised from the configuration and the frame skip is computed from the timestep of
the controller.  There is no object when the frame skip has no value. -/
def create (controller : MCGlobalController) (c : VREPSimulationConfiguration) :
    Option VREPSimulationImpl :=
  (computeFrameskip controller.timestep c.simulationTimestep).map fun f =>
    { controller := controller
      velocityControl := c.velocityControl
      torqueControl := c.torqueControl
      extraRobots := c.extras
      rIdx := []
      suffixes := []
      baseNames := []
      joints := []
      jQs := []
      jTorques := []
      fSensors := StdMap.empty
      accel := default
      gyro := default
      basePoses := []
      baseVels := []
      external_force := StdMap.empty
      impact_force := StdMap.empty
      simulationTimestep := c.simulationTimestep
      iter := 0
      frameskip := f }

/-- The joint counts of the bound robots, in binding order. -/
def jointCounts (s : VREPSimulationImpl) : List Nat :=
  s.rIdx.map (jointCount s.controller)

/-- The state before call number `k` (from 0) of `nextSimulationStep`, when call number
`j` meets the input `inputs j`. -/
def stateBefore (inputs : Nat → StepInput) (s0 : VREPSimulationImpl) :
    Nat → VREPSimulationImpl
  | 0 => s0
  | k + 1 => (nextSimulationStep (stateBefore inputs s0 k) (inputs k)).1

end VREPSimulationImpl

open VREPSimulationImpl

/-! ## Concrete inputs -/

/-- A robot with a fixed root joint followed by one revolute joint per name given, all
of them in the reference order, that holds no encoder values yet. -/
def exampleRobot (name : String) (joints : List String) : Robot :=
  { name := name
    refJointOrder := joints
    forceSensors := []
    mb := ⟨"Root", JointType.Fixed⟩ :: joints.map (fun j => ⟨j, JointType.Rev⟩)
    mbc := ⟨[] :: joints.map (fun _ => [0]), [] :: joints.map (fun _ => [0])⟩
    encoderValues := []
    jointTorques := []
    bodySensor := default
    posW := default }

/-- A simulation bound to the robots given, in their order, at iteration 0, with the
simulation timestep given and a controller timestep of `frameskip` times that. -/
def exampleSimulation (robots : List Robot) (simulationTimestep : ℚ) (frameskip : Nat) :
    VREPSimulationImpl :=
  { controller :=
      { timestep := frameskip * simulationTimestep
        running := true
        robots := robots
        realRobots := robots
        wrenches := StdMap.empty
        sensorLinearAcceleration := default }
    velocityControl := false
    torqueControl := false
    extraRobots := []
    rIdx := List.range robots.length
    suffixes := robots.map (fun _ => "")
    baseNames := []
    joints := []
    jQs := []
    jTorques := []
    fSensors := StdMap.empty
    accel := default
    gyro := default
    basePoses := robots.map (fun _ => default)
    baseVels := robots.map (fun _ => default)
    external_force := StdMap.empty
    impact_force := StdMap.empty
    simulationTimestep := simulationTimestep
    iter := 0
    frameskip := frameskip }

/-- The simulator state with the joint positions and torques given, for `n` robots. -/
def exampleState (n : Nat) (jQs jTorques : List ℚ) : SimulationState :=
  { jQs := jQs
    jTorques := jTorques
    fSensors := StdMap.empty
    accel := default
    gyro := default
    basePoses := List.replicate n default
    baseVels := List.replicate n default }

/-- A step input whose `controller.run()` leaves the controller as it is and reports
that it ran. -/
def exampleInput (n : Nat) (jQs jTorques : List ℚ) : StepInput :=
  { state := exampleState n jQs jTorques
    run := fun c => (c, true) }

/-- A force of 10 along the third axis. -/
def exampleForce : ForceVecd := ⟨⟨0, 0, 0⟩, ⟨0, 0, 10⟩⟩

/-- A simulation with frame skip 2, at iteration 0, that holds a persistent force on one
body. -/
def persistentForceStart : VREPSimulationImpl :=
  (setExternalForce (exampleSimulation [] 0.005 2) "body_respondable" exampleForce).1

/-- The simulation above after its first call of `nextSimulationStep`. -/
def persistentForceExample : VREPSimulationImpl :=
  (nextSimulationStep persistentForceStart (exampleInput 0 [] [])).1

/-- A simulation with a simulation timestep and a controller timestep of 0.01, bound to
one robot with one joint. -/
def velocityExample : VREPSimulationImpl :=
  exampleSimulation [exampleRobot "arm" ["elbow"]] 0.01 1

/-- The simulation above after a first `updateData`, the simulator having returned the
position 0 for the joint. -/
def velocityFirstTick : VREPSimulationImpl :=
  updateData (storeState velocityExample (exampleState 1 [0] [0]))

/-- The same after a second `updateData`, the simulator having returned the position
0.1 for the joint. -/
def velocitySecondTick : VREPSimulationImpl :=
  updateData (storeState velocityFirstTick (exampleState 1 [0.1] [0]))

/-- A simulation bound to a robot with six joints and a robot with three joints, after
the simulator returned nine positions and nine torques. -/
def sliceExample : VREPSimulationImpl :=
  storeState
    (exampleSimulation
      [exampleRobot "first" ["a0", "a1", "a2", "a3", "a4", "a5"],
       exampleRobot "second" ["b0", "b1", "b2"]] 0.005 1)
    (exampleState 2 [0, 1, 2, 3, 4, 5, 6, 7, 8] [10, 11, 12, 13, 14, 15, 16, 17, 18])

/-! ## `mc_vrep.cpp` -/

/-- One turn of the loop of `simThread`, as the command line interface (class `VREPCLI`,
whose answers are inputs here) shapes it: the input of the simulation step, what
`cli.stepByStep()` answers when the waiting loop is first reached, and the
`controller.run()` of each turn the waiting loop then takes. -/
structure Advance where
  step : StepInput
  stepByStep : Bool
  refreshes : List (MCGlobalController → MCGlobalController × Bool)

/-- The waiting loop of `simThread`: one `updateGUI` per turn. -/
def waitLoop (s : VREPSimulationImpl) :
    List (MCGlobalController → MCGlobalController × Bool) → VREPSimulationImpl × List Call
  | [] => (s, [])
  | run :: rest =>
    let r := updateGUI s run
    let r2 := waitLoop r.1 rest
    (r2.1, r.2 ++ r2.2)

/-- The function `simThread`: one element of the list for every time `cli.done()` is
found false at the head of the loop; `stopSimulation` once it is found true. -/
def simThread (s : VREPSimulationImpl) : List Advance → VREPSimulationImpl × List Call
  | [] => stopSimulation s
  | a :: rest =>
    let r1 := nextSimulationStep s a.step
    let r2 := if a.stepByStep then waitLoop r1.1 a.refreshes else (r1.1, [])
    let r3 := simThread r2.1 rest
    (r3.1, r1.2 ++ r2.2 ++ r3.2)

/-- The section `VREP` of the configuration file: every entry may be absent. -/
structure VREPSection where
  host : Option String
  port : Option Int
  timeout : Option Int
  waitUntilConnected : Option Bool
  doNotReconnect : Option Bool
  commThreadCycleInMs : Option Int
  simulationTimestep : Option ℚ
  stepByStep : Option Bool
  velocityControl : Option Bool
  torqueControl : Option Bool
  extras : Option (List (Nat × Option String))

/-- The replacement `main` makes of a negative simulation timestep by the timestep of
the controller. -/
def defaultTimestep (simulationTimestep timestep : ℚ) : ℚ :=
  if simulationTimestep < 0 then timestep else simulationTimestep

/-- The entries `main` reads before it validates the control mode; `config` holds the
default values of `VREPSimulationConfiguration`, and an entry that is absent leaves the
default in place. -/
def readEntries (config : VREPSimulationConfiguration) (vrep_c : VREPSection)
    (timestep : ℚ) : VREPSimulationConfiguration :=
  { config with
    host := vrep_c.host.getD config.host
    port := vrep_c.port.getD config.port
    timeout := vrep_c.timeout.getD config.timeout
    waitUntilConnected := vrep_c.waitUntilConnected.getD config.waitUntilConnected
    doNotReconnect := vrep_c.doNotReconnect.getD config.doNotReconnect
    commThreadCycleInMs := vrep_c.commThreadCycleInMs.getD config.commThreadCycleInMs
    simulationTimestep :=
      defaultTimestep (vrep_c.simulationTimestep.getD config.simulationTimestep) timestep
    stepByStep := vrep_c.stepByStep.getD config.stepByStep
    velocityControl := vrep_c.velocityControl.getD config.velocityControl
    torqueControl := vrep_c.torqueControl.getD config.torqueControl }

/-- The validation of the control mode in `main`. -/
def validateControlMode (config : VREPSimulationConfiguration) : Except String Unit :=
  if config.velocityControl && config.torqueControl then
    Except.error "Only one of VelocityControl or TorqueControl must be true"
  else Except.ok ()

/-- The entry `Extras`, read after the validation. -/
def readExtras (config : VREPSimulationConfiguration) (vrep_c : VREPSection) :
    VREPSimulationConfiguration :=
  match vrep_c.extras with
  | some extras_c =>
    { config with
      extras := config.extras ++ extras_c.map (fun e => ⟨e.1, e.2.getD ""⟩) }
  | none => config

/-- The steps `main` takes on the simulation, in program order. -/
inductive MainStep where
  | construct (config : VREPSimulationConfiguration)
  | startSimulation
  | startCli
  | simThread
  | joinCli
deriving DecidableEq

/-- The function `main`, from the creation of the configuration on: the steps taken,
and the exception that ended it or the exit code. -/
def main (config : VREPSimulationConfiguration) (vrep_c : VREPSection) (timestep : ℚ) :
    List MainStep × Except String Int :=
  let config1 := readEntries config vrep_c timestep
  match validateControlMode config1 with
  | Except.error msg => ([], Except.error msg)
  | Except.ok _ =>
    let config2 := readExtras config1 vrep_c
    ([MainStep.construct config2, MainStep.startSimulation, MainStep.startCli,
      MainStep.simThread, MainStep.joinCli], Except.ok 0)

/-- Default values for the configuration. -/
def exampleConfiguration : VREPSimulationConfiguration :=
  { host := "127.0.0.1"
    port := 19997
    timeout := 3000
    waitUntilConnected := true
    doNotReconnect := true
    commThreadCycleInMs := 1
    simulationTimestep := -1
    stepByStep := false
    velocityControl := false
    torqueControl := false
    extras := [] }

/-- A section `VREP` that only holds the entries given. -/
def exampleSection (simulationTimestep : Option ℚ) (velocityControl torqueControl : Option Bool) :
    VREPSection :=
  { host := none
    port := none
    timeout := none
    waitUntilConnected := none
    doNotReconnect := none
    commThreadCycleInMs := none
    simulationTimestep := simulationTimestep
    stepByStep := none
    velocityControl := velocityControl
    torqueControl := torqueControl
    extras := none }

/-- A controller without robots whose timestep is the one given. -/
def exampleController (timestep : ℚ) : MCGlobalController :=
  { timestep := timestep
    running := false
    robots := []
    realRobots := []
    wrenches := StdMap.empty
    sensorLinearAcceleration := default }

/-! ## Frame skipping -/

theorem controlTick_iter (s : VREPSimulationImpl) (e : StepInput) :
    (controlTick s e).1.iter = s.iter := rfl

/-- A control tick leaves the frame skip alone. -/
theorem controlTick_frameskip (s : VREPSimulationImpl) (e : StepInput) :
    (controlTick s e).1.frameskip = s.frameskip := rfl

/-- A control tick leaves the persistent-force map alone. -/
theorem controlTick_external_force (s : VREPSimulationImpl) (e : StepInput) :
    (controlTick s e).1.external_force = s.external_force := rfl

/-- Every call raises the iteration counter by one. -/
theorem nextSimulationStep_iter (s : VREPSimulationImpl) (e : StepInput) :
    (nextSimulationStep s e).1.iter = s.iter + 1 := by
  unfold nextSimulationStep
  split_ifs <;> simp [controlTick_iter]

/-- No call changes the frame skip. -/
theorem nextSimulationStep_frameskip (s : VREPSimulationImpl) (e : StepInput) :
    (nextSimulationStep s e).1.frameskip = s.frameskip := by
  unfold nextSimulationStep
  split_ifs <;> simp [controlTick_frameskip]

/-- Before call number `k` the counter has grown by `k`. -/
theorem stateBefore_iter (inputs : Nat → StepInput) (s0 : VREPSimulationImpl) (k : Nat) :
    (stateBefore inputs s0 k).iter = s0.iter + k := by
  induction k with
  | zero => rfl
  | succ k ih => simp [stateBefore, nextSimulationStep_iter, ih, Nat.add_assoc]

/-- The frame skip is the same before every call. -/
theorem stateBefore_frameskip (inputs : Nat → StepInput) (s0 : VREPSimulationImpl) (k : Nat) :
    (stateBefore inputs s0 k).frameskip = s0.frameskip := by
  induction k with
  | zero => rfl
  | succ k ih => simp [stateBefore, nextSimulationStep_frameskip, ih]



/-- Every call of the persistent-force loop is the `addForce` of an entry of the map. -/
theorem mem_externalForceCalls (s : VREPSimulationImpl) (c : Call)
    (h : c ∈ externalForceCalls s) :
    ∃ f ∈ s.external_force.entries, c = Call.addForce f.1 f.2 := by
  rcases List.mem_map.1 h with ⟨f, hf, rfl⟩
  exact ⟨f, hf, rfl⟩

/-- Every call of the impact loop is the `addForce` of an entry of the map. -/
theorem mem_impactForceCalls (s : VREPSimulationImpl) (c : Call)
    (h : c ∈ impactForceCalls s) :
    ∃ f ∈ s.impact_force.entries, c = Call.addForce f.1 f.2 := by
  rcases List.mem_map.1 h with ⟨f, hf, rfl⟩
  exact ⟨f, hf, rfl⟩

/-- The flush issues `addForce` calls only. -/
theorem mem_flush_calls (s : VREPSimulationImpl) (c : Call) (h : c ∈ (flush s).2) :
    ∃ b w, c = Call.addForce b w := by
  rcases List.mem_append.1 h with h | h
  · rcases mem_externalForceCalls s c h with ⟨f, _, rfl⟩
    exact ⟨_, _, rfl⟩
  · rcases mem_impactForceCalls s c h with ⟨f, _, rfl⟩
    exact ⟨_, _, rfl⟩

/-- The actuation loop issues target-setting calls only. -/
theorem mem_actuationCalls (s : VREPSimulationImpl) (rs : List Nat) (i : Nat) (c : Call)
    (h : c ∈ actuationCalls s rs i) :
    ∃ robot suffix, c = Call.setRobotTargetTorque robot suffix ∨
      c = Call.setRobotTargetVelocity robot suffix ∨
      c = Call.setRobotTargetConfiguration robot suffix := by
  induction rs generalizing i with
  | nil => simp [actuationCalls] at h
  | cons r rest ih =>
    unfold actuationCalls at h
    rcases List.mem_append.1 h with h | h
    · cases hr : s.controller.robots[r]? with
      | none => simp [hr] at h
      | some robot =>
        simp only [hr] at h
        split_ifs at h
        · exact ⟨robot, _, Or.inl (List.mem_singleton.1 h)⟩
        · exact ⟨robot, _, Or.inr (Or.inl (List.mem_singleton.1 h))⟩
        · exact ⟨robot, _, Or.inr (Or.inr (List.mem_singleton.1 h))⟩
    · exact ih _ h

/-- The calls of a control tick, between the two readings of the time. -/
theorem controlTick_calls (s : VREPSimulationImpl) (e : StepInput) :
    (controlTick s e).2 =
      [Call.getSimulationState] ++ (flush (storeState s e.state)).2 ++ [Call.controllerRun]
        ++ (if (e.run (updateData (flush (storeState s e.state)).1).controller).2 then
              actuationCalls (controlTick s e).1 (controlTick s e).1.rIdx 0
            else []) := rfl

/-- A control tick does not itself advance the simulator. -/
theorem step_not_mem_controlTick (s : VREPSimulationImpl) (e : StepInput) :
    Call.nextSimulationStep ∉ (controlTick s e).2 := by
  rw [controlTick_calls]
  intro h
  simp only [List.mem_append, List.mem_singleton] at h
  rcases h with ((h | h) | h) | h
  · cases h
  · rcases mem_flush_calls _ _ h with ⟨b, w, hb⟩
    cases hb
  · cases h
  · split_ifs at h
    · rcases mem_actuationCalls _ _ _ _ h with ⟨_, _, h | h | h⟩ <;> cases h
    · simp at h

/-- The call when the counter is a multiple of the frame skip. -/
theorem nextSimulationStep_of_tick (s : VREPSimulationImpl) (e : StepInput)
    (h : s.iter % s.frameskip = 0) :
    nextSimulationStep s e =
      ({ (controlTick s e).1 with iter := s.iter + 1 },
        [Call.getSimulationTime] ++ (controlTick s e).2 ++
          [Call.getSimulationTime, Call.nextSimulationStep]) := by
  simp [nextSimulationStep, h, controlTick_iter]

/-- The call when the counter is not a multiple of the frame skip. -/
theorem nextSimulationStep_of_not_tick (s : VREPSimulationImpl) (e : StepInput)
    (h : ¬ s.iter % s.frameskip = 0) :
    nextSimulationStep s e =
      ({ s with iter := s.iter + 1 },
        [Call.getSimulationTime, Call.getSimulationTime, Call.nextSimulationStep]) := by
  simp [nextSimulationStep, h]

/-- C1: for every frame skip of at least 1 and every `k`, call number `k` (from 0) of
`nextSimulationStep`, started at iteration counter 0, requests the simulator state and
runs the controller if and only if `k` is a multiple of the frame skip.  On such a call
the calls are the state request, the flush of the disturbances, `controller.run()` on
the controller that `updateData` filled, and the actuation, and the impact map ends
empty; on every other call nothing but the counter changes.  Every call raises the
counter by exactly one and advances the simulator exactly once. -/
theorem nextSimulationStep_control_tick_iff (inputs : Nat → StepInput)
    (s0 : VREPSimulationImpl) (h0 : s0.iter = 0) (hf : 1 ≤ s0.frameskip) (k : Nat) :
    let s := stateBefore inputs s0 k
    let e := inputs k
    let r := nextSimulationStep s e
    (Call.getSimulationState ∈ r.2 ↔ s0.frameskip ∣ k) ∧
    (Call.controllerRun ∈ r.2 ↔ s0.frameskip ∣ k) ∧
    (s0.frameskip ∣ k →
      r.2 = [Call.getSimulationTime, Call.getSimulationState]
              ++ (flush (storeState s e.state)).2 ++ [Call.controllerRun]
              ++ (if (e.run (updateData (flush (storeState s e.state)).1).controller).2 then
                    actuationCalls (controlTick s e).1 (controlTick s e).1.rIdx 0
                  else [])
              ++ [Call.getSimulationTime, Call.nextSimulationStep] ∧
      r.1.controller = (e.run (updateData (flush (storeState s e.state)).1).controller).1 ∧
      r.1.impact_force.entries = []) ∧
    (¬ s0.frameskip ∣ k →
      r.2 = [Call.getSimulationTime, Call.getSimulationTime, Call.nextSimulationStep] ∧
      r.1 = { s with iter := s.iter + 1 }) ∧
    s.iter = k ∧ 1 ≤ s.frameskip ∧ r.1.iter = k + 1 ∧
    r.2.count Call.nextSimulationStep = 1 := by
  intro s e r
  have hiter : s.iter = k := by
    simp [s, stateBefore_iter, h0]
  have hfs : s.frameskip = s0.frameskip := stateBefore_frameskip inputs s0 k
  have hdvd : s0.frameskip ∣ k ↔ s.iter % s.frameskip = 0 := by
    rw [hiter, hfs]
    exact Nat.dvd_iff_mod_eq_zero
  by_cases ht : s.iter % s.frameskip = 0
  · have hr : r = _ := nextSimulationStep_of_tick s e ht
    have hstep := step_not_mem_controlTick s e
    have hcount : r.2.count Call.nextSimulationStep = 1 := by
      rw [hr]
      simp only [List.count_append, List.count_cons, List.count_nil]
      rw [List.count_eq_zero_of_not_mem hstep]
      simp
    rw [controlTick_calls] at hr
    refine ⟨?_, ?_, ?_, ?_, hiter, hfs ▸ hf, ?_, hcount⟩
    · simp [hr, hdvd, ht]
    · simp [hr, hdvd, ht]
    · intro _
      refine ⟨by simp [hr], by simp [hr, controlTick], ?_⟩
      simp [hr, controlTick, updateData, flush, StdMap.clear, StdMap.empty]
    · intro hn
      exact absurd (hdvd.2 ht) hn
    · rw [← hiter]; exact nextSimulationStep_iter s e
  · have hr : r = _ := nextSimulationStep_of_not_tick s e ht
    refine ⟨?_, ?_, ?_, ?_, hiter, hfs ▸ hf, ?_, ?_⟩
    · simp [hr, hdvd, ht]
    · simp [hr, hdvd, ht]
    · intro hd
      exact absurd (hdvd.1 hd) ht
    · intro _
      exact ⟨by simp [hr], by simp [hr]⟩
    · rw [← hiter]; exact nextSimulationStep_iter s e
    · simp [hr]

/-! ## Disturbances -/

theorem eraseEntry_insertEntry {V : Type} (k : String) (v : V) (es : List (String × V)) :
    eraseEntry k (insertEntry k v es) = eraseEntry k es := by
  induction es with
  | nil => simp [insertEntry, eraseEntry]
  | cons a rest ih =>
    unfold insertEntry
    split_ifs with h1 h2
    · simp [eraseEntry]
    · have hne : a.1 ≠ k := ne_of_lt h2
      simp only [eraseEntry, List.filter_cons, hne, ne_eq, not_false_eq_true, decide_True,
        if_true]
      exact congrArg _ ih
    · have hk : a.1 = k := le_antisymm (not_lt.1 h1) (not_lt.1 h2)
      simp [eraseEntry, List.filter_cons, hk]

/-- The entries left by an erasure are those of the other keys. -/
theorem mem_eraseEntry {V : Type} (k : String) (es : List (String × V)) (e : String × V) :
    e ∈ eraseEntry k es ↔ e ∈ es ∧ e.1 ≠ k := by
  simp [eraseEntry, List.mem_filter]

/-- The member `count` is not zero exactly when the key has an entry. -/
theorem count_pos_iff_mem {V : Type} (m : StdMap V) (k : String) :
    m.count k ≠ 0 ↔ ∃ v, (k, v) ∈ m.entries := by
  unfold StdMap.count
  rw [Nat.ne_zero_iff_zero_lt, List.countP_pos_iff]
  constructor
  · rintro ⟨e, he, hk⟩
    have hk2 : e.1 = k := of_decide_eq_true hk
    exact ⟨e.2, by rw [← hk2]; exact he⟩
  · rintro ⟨v, hv⟩
    exact ⟨(k, v), hv, by simp⟩

/-- In a map, the entries with a given key are that key's one entry. -/
theorem filter_key_of_mem {V : Type} (es : List (String × V))
    (hs : es.Pairwise (fun a b => a.1 < b.1)) (k : String) (v : V) (h : (k, v) ∈ es) :
    es.filter (fun e => decide (e.1 = k)) = [(k, v)] := by
  induction es with
  | nil => simp at h
  | cons a rest ih =>
    have ha := (List.pairwise_cons.1 hs).1
    have hrest := (List.pairwise_cons.1 hs).2
    rcases List.mem_cons.1 h with h | h
    · subst h
      have hnone : rest.filter (fun e => decide (e.1 = k)) = [] := by
        rw [List.filter_eq_nil_iff]
        intro e he hk
        have hk2 : e.1 = k := of_decide_eq_true hk
        exact absurd (ha e he) (by rw [hk2]; exact lt_irrefl _)
      simp [List.filter_cons, hnone]
    · have hne : a.1 ≠ k := ne_of_lt (ha (k, v) h)
      simp [List.filter_cons, hne, ih hrest h]

/-- Selecting the `addForce` calls of one body is selecting the entries of that key. -/
theorem forceBody_addForce_filter {V : Type} (f : V → ForceVecd) (es : List (String × V))
    (b : String) :
    (es.map (fun e => Call.addForce e.1 (f e.2))).filter
        (fun c => decide (c.forceBody = some b)) =
      (es.filter (fun e => decide (e.1 = b))).map (fun e => Call.addForce e.1 (f e.2)) := by
  induction es with
  | nil => rfl
  | cons a rest ih =>
    have hb : (Call.addForce a.1 (f a.2)).forceBody = some a.1 := rfl
    simp only [List.map_cons, List.filter_cons, ih, hb, Option.some.injEq]
    by_cases h : a.1 = b <;> simp [h]

/-- An assignment leaves its entry in the list. -/
theorem self_mem_insertEntry {V : Type} (k : String) (v : V) (es : List (String × V)) :
    (k, v) ∈ insertEntry k v es := by
  induction es with
  | nil => simp [insertEntry]
  | cons a rest ih =>
    unfold insertEntry
    split_ifs
    · exact List.mem_cons_self _ _
    · exact List.mem_cons_of_mem _ ih
    · exact List.mem_cons_self _ _

/-- The removal when the body has an entry. -/
theorem removeExternalForce_of_mem (s : VREPSimulationImpl) (b : String)
    (h : ∃ w0, (b, w0) ∈ s.external_force.entries) :
    removeExternalForce s b = ({ s with external_force := s.external_force.erase b }, true) := by
  have hc := (count_pos_iff_mem s.external_force b).2 h
  simp [removeExternalForce, hc]

/-- The removal when the body has no entry. -/
theorem removeExternalForce_of_not_mem (s : VREPSimulationImpl) (b : String)
    (h : ¬ ∃ w0, (b, w0) ∈ s.external_force.entries) :
    removeExternalForce s b = (s, false) := by
  have hc : ¬ s.external_force.count b ≠ 0 := fun hc =>
    h ((count_pos_iff_mem s.external_force b).1 hc)
  simp only [removeExternalForce, hc, if_false]

/-- The calls of a call that is a control tick: the forces of both maps, between the
state request and `controller.run()`, and no force after it. -/
theorem nextSimulationStep_tick_calls (s : VREPSimulationImpl) (e : StepInput)
    (ht : s.iter % s.frameskip = 0) :
    ∃ acts, (nextSimulationStep s e).2 =
        [Call.getSimulationTime, Call.getSimulationState] ++ externalForceCalls s
          ++ (impactForceCalls s ++ [Call.controllerRun] ++ acts
              ++ [Call.getSimulationTime, Call.nextSimulationStep]) ∧
      ∀ c ∈ acts, c.forceBody = none := by
  refine ⟨if (e.run (updateData (flush (storeState s e.state)).1).controller).2
      then actuationCalls (controlTick s e).1 (controlTick s e).1.rIdx 0 else [], ?_, ?_⟩
  · rw [nextSimulationStep_of_tick s e ht, controlTick_calls]
    simp [flush, externalForceCalls, impactForceCalls, storeState]
  · intro c hc
    split_ifs at hc
    · rcases mem_actuationCalls _ _ _ _ hc with ⟨_, _, h | h | h⟩ <;> rw [h] <;> rfl
    · simp at hc

/-- A call that is a control tick leaves the impact map empty. -/
theorem nextSimulationStep_tick_impact_force (s : VREPSimulationImpl) (e : StepInput)
    (ht : s.iter % s.frameskip = 0) :
    (nextSimulationStep s e).1.impact_force.entries = [] := by
  rw [nextSimulationStep_of_tick s e ht]
  rfl

/-- C2: with no persistent force and no impact pending, `applyImpact b w` always
succeeds, and the flush that follows issues exactly one `addForce`, for body `b` with
wrench `w` divided by the timestep of the controller, and leaves the impact map empty; a
second flush issues no call; of two `applyImpact` on the same body before the flush only
the later one is applied.  The same holds for the whole call of `nextSimulationStep` that
is a control tick: its only `addForce` is that one. -/
theorem applyImpact_flush_once (s : VREPSimulationImpl) (b : String) (w : ForceVecd)
    (he : s.external_force.entries = []) (hi : s.impact_force.entries = []) :
    (applyImpact s b w).2 = true ∧
    (flush (applyImpact s b w).1).2 = [Call.addForce b (w / s.controller.timestep)] ∧
    (flush (applyImpact s b w).1).1.impact_force.entries = [] ∧
    (flush (flush (applyImpact s b w).1).1).2 = [] ∧
    (∀ w0 : ForceVecd,
      (flush (applyImpact (applyImpact s b w0).1 b w).1).2 =
        [Call.addForce b (w / s.controller.timestep)]) ∧
    (1 ≤ s.frameskip → s.iter % s.frameskip = 0 → ∀ e : StepInput,
      (nextSimulationStep (applyImpact s b w).1 e).2.filter
          (fun c => decide (c.forceBody ≠ none))
        = [Call.addForce b (w / s.controller.timestep)] ∧
      (nextSimulationStep (applyImpact s b w).1 e).1.impact_force.entries = []) := by
  have hext : externalForceCalls (applyImpact s b w).1 = [] := by
    simp [applyImpact, externalForceCalls, he]
  have himp : impactForceCalls (applyImpact s b w).1
      = [Call.addForce b (w / s.controller.timestep)] := by
    simp [applyImpact, impactForceCalls, StdMap.assign, hi, insertEntry]
  refine ⟨rfl, ?_, rfl, ?_, ?_, ?_⟩
  · simp [flush, hext, himp]
  · simp [flush, applyImpact, externalForceCalls, impactForceCalls, StdMap.clear,
      StdMap.empty, he]
  · intro w0
    simp [flush, applyImpact, externalForceCalls, impactForceCalls, StdMap.assign, he, hi,
      insertEntry]
  · intro _ ht e
    have ht2 : (applyImpact s b w).1.iter % (applyImpact s b w).1.frameskip = 0 := ht
    refine ⟨?_, nextSimulationStep_tick_impact_force _ e ht2⟩
    rcases nextSimulationStep_tick_calls (applyImpact s b w).1 e ht2 with ⟨acts, hcalls, hacts⟩
    have hfacts : acts.filter (fun c => decide (c.forceBody ≠ none)) = [] := by
      rw [List.filter_eq_nil_iff]
      intro c hc
      simp [hacts c hc]
    rw [hcalls, hext, himp]
    simp only [List.filter_append, hfacts]
    simp [List.filter_cons, Call.forceBody]

/-- C3: `removeExternalForce b` returns true exactly when `b` has an entry in the
persistent-force map, and returns false and changes nothing when `b` has none.  After
`setExternalForce b w` and `removeExternalForce b` the map is the first map without the
entry of `b`: `b` has no entry and the flush issues no persistent-force call for `b`,
every other body keeps its entry and the flush still applies it. -/
theorem removeExternalForce_spec (s : VREPSimulationImpl) (b : String) (w : ForceVecd) :
    ((removeExternalForce s b).2 = true ↔ ∃ w0, (b, w0) ∈ s.external_force.entries) ∧
    ((∀ w0, (b, w0) ∉ s.external_force.entries) → removeExternalForce s b = (s, false)) ∧
    (removeExternalForce (setExternalForce s b w).1 b).2 = true ∧
    (removeExternalForce (setExternalForce s b w).1 b).1.external_force.entries =
      eraseEntry b s.external_force.entries ∧
    (∀ w0, (b, w0) ∉
      (removeExternalForce (setExternalForce s b w).1 b).1.external_force.entries) ∧
    (∀ c ∈ externalForceCalls (removeExternalForce (setExternalForce s b w).1 b).1,
      c.forceBody ≠ some b) ∧
    (∀ b0 w0, b0 ≠ b →
      ((b0, w0) ∈ (removeExternalForce (setExternalForce s b w).1 b).1.external_force.entries
        ↔ (b0, w0) ∈ s.external_force.entries)) ∧
    (∀ b0 w0, b0 ≠ b → (b0, w0) ∈ s.external_force.entries →
      Call.addForce b0 w0 ∈ (flush (removeExternalForce (setExternalForce s b w).1 b).1).2) := by
  have hmem : ∃ w0, (b, w0) ∈ (setExternalForce s b w).1.external_force.entries :=
    ⟨w, self_mem_insertEntry b w s.external_force.entries⟩
  have hrem := removeExternalForce_of_mem (setExternalForce s b w).1 b hmem
  have hent : (removeExternalForce (setExternalForce s b w).1 b).1.external_force.entries =
      eraseEntry b s.external_force.entries := by
    rw [hrem]
    exact eraseEntry_insertEntry b w s.external_force.entries
  refine ⟨?_, ?_, ?_, hent, ?_, ?_, ?_, ?_⟩
  · by_cases h : ∃ w0, (b, w0) ∈ s.external_force.entries
    · simp [removeExternalForce_of_mem s b h, h]
    · simp [removeExternalForce_of_not_mem s b h, h]
  · intro h
    exact removeExternalForce_of_not_mem s b (fun ⟨w0, hw0⟩ => h w0 hw0)
  · rw [hrem]
  · intro w0 hw0
    rw [hent, mem_eraseEntry] at hw0
    exact hw0.2 rfl
  · intro c hc
    rcases mem_externalForceCalls _ c hc with ⟨f, hf, rfl⟩
    rw [hent, mem_eraseEntry] at hf
    intro hb
    exact hf.2 (Option.some.inj hb)
  · intro b0 w0 hne
    rw [hent, mem_eraseEntry]
    exact ⟨fun h => h.1, fun h => ⟨h, hne⟩⟩
  · intro b0 w0 hne h0
    refine List.mem_append_left _ (List.mem_map.2 ⟨(b0, w0), ?_, rfl⟩)
    rw [hent, mem_eraseEntry]
    exact ⟨h0, hne⟩

/-! ## Persistent forces -/

theorem nextSimulationStep_external_force (s : VREPSimulationImpl) (e : StepInput) :
    (nextSimulationStep s e).1.external_force = s.external_force := by
  unfold nextSimulationStep
  split_ifs <;> simp [controlTick_external_force]

/-- C9, amended: for a body `b` that holds the persistent force `w`, a call of
`nextSimulationStep` that is a control tick issues exactly one `addForce b w` from the
persistent-force map (the only other call for `b` is that of a pending impact on `b`),
before the simulator is advanced; a call that is not a control tick issues no
`addForce` at all; every call leaves the persistent-force map unchanged. -/
theorem persistent_force_on_control_ticks (s : VREPSimulationImpl) (e : StepInput)
    (b : String) (w : ForceVecd) (_hf : 1 ≤ s.frameskip)
    (hb : (b, w) ∈ s.external_force.entries) :
    (nextSimulationStep s e).1.external_force = s.external_force ∧
    (s.iter % s.frameskip = 0 →
      (externalForceCalls s).filter (fun c => decide (c.forceBody = some b))
        = [Call.addForce b w] ∧
      (nextSimulationStep s e).2.filter (fun c => decide (c.forceBody = some b))
        = Call.addForce b w ::
            (impactForceCalls s).filter (fun c => decide (c.forceBody = some b)) ∧
      ∃ acts, (nextSimulationStep s e).2 =
          [Call.getSimulationTime, Call.getSimulationState] ++ externalForceCalls s
            ++ (impactForceCalls s ++ [Call.controllerRun] ++ acts
                ++ [Call.getSimulationTime, Call.nextSimulationStep]) ∧
          ∀ c ∈ acts, c.forceBody = none) ∧
    (¬ s.iter % s.frameskip = 0 → ∀ c ∈ (nextSimulationStep s e).2, c.forceBody = none) := by
  refine ⟨nextSimulationStep_external_force s e, ?_, ?_⟩
  · intro ht
    have hext : (externalForceCalls s).filter (fun c => decide (c.forceBody = some b))
        = [Call.addForce b w] := by
      have h1 := forceBody_addForce_filter (fun x => x) s.external_force.entries b
      have h2 := filter_key_of_mem s.external_force.entries s.external_force.sorted b w hb
      simp only [h2] at h1
      exact h1
    rcases nextSimulationStep_tick_calls s e ht with ⟨acts, hcalls, hacts⟩
    have hfacts : acts.filter (fun c => decide (c.forceBody = some b)) = [] := by
      rw [List.filter_eq_nil_iff]
      intro c hc
      simp [hacts c hc]
    refine ⟨hext, ?_, acts, hcalls, hacts⟩
    rw [hcalls]
    simp only [List.filter_append, hext, hfacts]
    simp [List.filter_cons, Call.forceBody]
  · intro ht c hc
    rw [nextSimulationStep_of_not_tick s e ht] at hc
    simp only [List.mem_cons, List.mem_singleton, List.not_mem_nil, or_false] at hc
    rcases hc with h | h | h <;> rw [h] <;> rfl

/-- The persistent-force map of the example holds one entry, before and after the first
call. -/
theorem persistentForceExample_entries :
    persistentForceStart.external_force.entries = [("body_respondable", exampleForce)] ∧
    persistentForceExample.external_force.entries = [("body_respondable", exampleForce)] :=
  ⟨rfl, rfl⟩

/-- At frame skip 2 the second call is not a control tick: with a persistent force set
on a body, its calls are the two time readings and the simulation step, without any
`addForce`. -/
theorem persistent_force_skipped_between_control_ticks :
    1 ≤ persistentForceExample.frameskip ∧ persistentForceExample.iter = 1 ∧
    ("body_respondable", exampleForce) ∈ persistentForceExample.external_force.entries ∧
    (nextSimulationStep persistentForceExample (exampleInput 0 [] [])).2
      = [Call.getSimulationTime, Call.getSimulationTime, Call.nextSimulationStep] ∧
    (nextSimulationStep persistentForceExample (exampleInput 0 [] [])).2.count
      (Call.addForce "body_respondable" exampleForce) = 0 := by
  refine ⟨by decide, rfl, ?_, rfl, rfl⟩
  rw [persistentForceExample_entries.2]
  exact List.mem_singleton.2 rfl

/-- At frame skip 2 the call made at iteration 0 is a control tick and issues the one
`addForce` of the persistent force. -/
theorem persistent_force_on_control_ticks_witness :
    1 ≤ persistentForceStart.frameskip ∧
    ("body_respondable", exampleForce) ∈ persistentForceStart.external_force.entries ∧
    (nextSimulationStep persistentForceStart (exampleInput 0 [] [])).2.filter
        (fun c => decide (c.forceBody = some "body_respondable"))
      = [Call.addForce "body_respondable" exampleForce] :=
  ⟨by decide, by rw [persistentForceExample_entries.1]; exact List.mem_singleton.2 rfl,
    ((persistent_force_on_control_ticks persistentForceStart (exampleInput 0 [] [])
      "body_respondable" exampleForce (by decide)
      (by rw [persistentForceExample_entries.1]; exact List.mem_singleton.2 rfl)).2.1
      (by decide)).2.1⟩

/-! ## Counting control ticks -/

theorem run_count_controlTick (s : VREPSimulationImpl) (e : StepInput) :
    (controlTick s e).2.count Call.controllerRun = 1 := by
  rw [controlTick_calls]
  have hflush : (flush (storeState s e.state)).2.count Call.controllerRun = 0 := by
    apply List.count_eq_zero_of_not_mem
    intro h
    rcases mem_flush_calls _ _ h with ⟨b, w, hb⟩
    cases hb
  have hacts : (if (e.run (updateData (flush (storeState s e.state)).1).controller).2
        then actuationCalls (controlTick s e).1 (controlTick s e).1.rIdx 0 else []).count
        Call.controllerRun = 0 := by
    apply List.count_eq_zero_of_not_mem
    intro h
    split_ifs at h
    · rcases mem_actuationCalls _ _ _ _ h with ⟨_, _, h | h | h⟩ <;> cases h
    · simp at h
  simp only [List.count_append, hflush, hacts]
  simp

/-- A call invokes `controller.run()` once on a control tick and not at all otherwise.
-/
theorem run_count_nextSimulationStep (s : VREPSimulationImpl) (e : StepInput) :
    (nextSimulationStep s e).2.count Call.controllerRun
      = if s.iter % s.frameskip = 0 then 1 else 0 := by
  by_cases ht : s.iter % s.frameskip = 0
  · rw [nextSimulationStep_of_tick s e ht, if_pos ht]
    simp only [List.count_append, run_count_controlTick]
    simp
  · rw [nextSimulationStep_of_not_tick s e ht, if_neg ht]
    simp

/-- The quotient rounded up grows by one exactly at the multiples. -/
theorem ceil_div_succ (f i : Nat) (hf : 1 ≤ f) :
    (i + 1 + f - 1) / f = (i + f - 1) / f + if i % f = 0 then 1 else 0 := by
  have h1 : i + 1 + f - 1 = (i + f - 1) + 1 := by omega
  rw [h1, Nat.succ_div]
  have h2 : i + f - 1 + 1 = i + f := by omega
  rw [h2]
  have h3 : f ∣ i + f ↔ i % f = 0 := by
    rw [Nat.dvd_add_self_right, Nat.dvd_iff_mod_eq_zero]
  by_cases h : i % f = 0
  · simp [h, h3.2 h]
  · simp [h, mt h3.1 h]

/-- The number of invocations of `controller.run()` by the loop, from any iteration
counter. -/
theorem run_count_simThread (advs : List Advance) :
    ∀ s : VREPSimulationImpl, 1 ≤ s.frameskip → (∀ a ∈ advs, a.stepByStep = false) →
      (simThread s advs).2.count Call.controllerRun + (s.iter + s.frameskip - 1) / s.frameskip
        = (s.iter + advs.length + s.frameskip - 1) / s.frameskip := by
  induction advs with
  | nil =>
    intro s _ _
    simp [simThread, stopSimulation]
  | cons a rest ih =>
    intro s hf hs
    have ha : a.stepByStep = false := hs a (List.mem_cons_self _ _)
    have hrest : ∀ x ∈ rest, x.stepByStep = false := fun x hx =>
      hs x (List.mem_cons_of_mem _ hx)
    have hfs := nextSimulationStep_frameskip s a.step
    have hit := nextSimulationStep_iter s a.step
    have h := ih (nextSimulationStep s a.step).1 (by rw [hfs]; exact hf) hrest
    rw [hfs, hit] at h
    have hc := ceil_div_succ s.frameskip s.iter hf
    simp only [simThread, ha, List.count_append, run_count_nextSimulationStep,
      List.length_cons]
    simp only [Bool.false_eq_true, if_false, List.count_nil, Nat.add_zero]
    have e1 : s.iter + (rest.length + 1) + s.frameskip - 1
        = s.iter + 1 + rest.length + s.frameskip - 1 := by omega
    rw [e1]
    omega

/-- C6, amended: with step-by-step mode off, `N` turns of the loop of `simThread` started
at iteration counter 0 with a frame skip `f` of at least 1 invoke `controller.run()`
exactly `(N + f - 1) / f` times, the quotient of `N` by `f` rounded up; this is `N / f`
when `f` divides `N`. -/
theorem simThread_run_count (s : VREPSimulationImpl) (advs : List Advance)
    (h0 : s.iter = 0) (hf : 1 ≤ s.frameskip) (hs : ∀ a ∈ advs, a.stepByStep = false) :
    (simThread s advs).2.count Call.controllerRun
      = (advs.length + s.frameskip - 1) / s.frameskip ∧
    (s.frameskip ∣ advs.length →
      (simThread s advs).2.count Call.controllerRun = advs.length / s.frameskip) := by
  have h := run_count_simThread advs s hf hs
  rw [h0] at h
  have hz : (0 + s.frameskip - 1) / s.frameskip = 0 :=
    Nat.div_eq_of_lt (by omega)
  rw [hz, Nat.zero_add, Nat.add_zero] at h
  refine ⟨h, ?_⟩
  rintro ⟨q, hq⟩
  rw [h, hq]
  have e1 : s.frameskip * q + s.frameskip - 1 = (s.frameskip - 1) + s.frameskip * q := by
    generalize s.frameskip * q = m
    omega
  rw [e1, Nat.add_mul_div_left _ _ (by omega : 0 < s.frameskip),
    Nat.div_eq_of_lt (by omega), Nat.zero_add, Nat.mul_div_cancel_left _ (by omega)]

/-- One turn of the loop at frame skip 2 invokes `controller.run()` once, while the
quotient of 1 by 2 is 0. -/
theorem simThread_one_advance_frameskip_two :
    (exampleSimulation [] 0.005 2).iter = 0 ∧ 1 ≤ (exampleSimulation [] 0.005 2).frameskip ∧
    (∀ a ∈ [(⟨exampleInput 0 [] [], false, []⟩ : Advance)], a.stepByStep = false) ∧
    (simThread (exampleSimulation [] 0.005 2) [⟨exampleInput 0 [] [], false, []⟩]).2.count
      Call.controllerRun = 1 ∧
    [(⟨exampleInput 0 [] [], false, []⟩ : Advance)].length / (exampleSimulation [] 0.005 2).frameskip
      = 0 := by
  refine ⟨rfl, by decide, ?_, ?_, by decide⟩
  · intro a ha
    rw [List.mem_singleton.1 ha]
  · rfl

/-! ## Joint-array slicing -/

theorem readSlice_length (xs : List ℚ) (off n : Nat) : (readSlice xs off n).length = n := by
  simp [readSlice]

/-- A slice read within the array is the array without its first `off` values, cut
after `n` values. -/
theorem readSlice_eq_take_drop (xs : List ℚ) (off n : Nat) (h : off + n ≤ xs.length) :
    readSlice xs off n = (xs.drop off).take n := by
  apply List.ext_getElem
  · simp [readSlice]; omega
  · intro j h1 h2
    simp only [readSlice, List.length_map, List.length_range] at h1
    have hj : off + j < xs.length := by omega
    simp [readSlice, List.getD_eq_getElem?_getD, List.getElem?_eq_getElem hj]

/-- The loop over the joints leaves the encoder values of the real robot alone. -/
theorem updateJoints_encoderValues (robot : Robot) (encoders prev : List ℚ)
    (js : List String) :
    ∀ (j : Nat) (real : Robot),
      (updateJoints robot encoders prev js j real).encoderValues = real.encoderValues := by
  induction js with
  | nil => intro j real; rfl
  | cons jN rest ih =>
    intro j real
    unfold updateJoints
    split_ifs
    · simp only [ih]
    · exact ih _ _

/-- The update of one robot keeps the number of robots. -/
theorem updateRobot_robots_length (s : VREPSimulationImpl) (i r jQi : Nat)
    (c : MCGlobalController) :
    (updateRobot s i r jQi c).robots.length = c.robots.length := by
  unfold updateRobot
  split <;> simp

/-- The update of one robot keeps the number of real robots. -/
theorem updateRobot_realRobots_length (s : VREPSimulationImpl) (i r jQi : Nat)
    (c : MCGlobalController) :
    (updateRobot s i r jQi c).realRobots.length = c.realRobots.length := by
  unfold updateRobot
  split <;> simp

/-- The update of one robot leaves the other robots alone. -/
theorem updateRobot_robots_ne (s : VREPSimulationImpl) (i r jQi : Nat)
    (c : MCGlobalController) (r0 : Nat) (h : r0 ≠ r) :
    (updateRobot s i r jQi c).robots[r0]? = c.robots[r0]? := by
  unfold updateRobot
  split
  · simp [List.getElem?_set_ne (Ne.symm h)]
  · rfl

/-- The update of one robot leaves the other real robots alone. -/
theorem updateRobot_realRobots_ne (s : VREPSimulationImpl) (i r jQi : Nat)
    (c : MCGlobalController) (r0 : Nat) (h : r0 ≠ r) :
    (updateRobot s i r jQi c).realRobots[r0]? = c.realRobots[r0]? := by
  unfold updateRobot
  split
  · simp [List.getElem?_set_ne (Ne.symm h)]
  · rfl

/-- The update of one robot changes no joint count. -/
theorem updateRobot_jointCount (s : VREPSimulationImpl) (i r jQi : Nat)
    (c : MCGlobalController) (r0 : Nat) :
    jointCount (updateRobot s i r jQi c) r0 = jointCount c r0 := by
  by_cases h : r0 = r
  · subst h
    unfold updateRobot jointCount
    split
    · rename_i robot0 real0 h1 h2
      have hlt : r0 < c.robots.length := by
        rcases List.getElem?_eq_some_iff.1 h1 with ⟨hlt, _⟩
        exact hlt
      simp [List.getElem?_set_self, hlt, h1]
    · rfl
  · unfold jointCount
    rw [updateRobot_robots_ne s i r jQi c r0 h]

/-- What the update of a robot leaves in it and in its real-robot copy. -/
theorem updateRobot_encoderValues (s : VREPSimulationImpl) (i r jQi : Nat)
    (c : MCGlobalController) (h1 : r < c.robots.length) (h2 : r < c.realRobots.length) :
    ((updateRobot s i r jQi c).robots[r]?).map Robot.encoderValues
        = some (readSlice s.jQs jQi (jointCount c r)) ∧
    ((updateRobot s i r jQi c).realRobots[r]?).map Robot.encoderValues
        = some (readSlice s.jQs jQi (jointCount c r)) ∧
    ((updateRobot s i r jQi c).robots[r]?).map Robot.jointTorques = some s.jTorques := by
  have e1 : c.robots[r]? = some c.robots[r] := List.getElem?_eq_getElem h1
  have e2 : c.realRobots[r]? = some c.realRobots[r] := List.getElem?_eq_getElem h2
  unfold updateRobot jointCount
  simp only [e1, e2]
  refine ⟨?_, ?_, ?_⟩
  · simp [h1]
  · simp only [List.getElem?_set_self h2, Option.map_some', updateJoints_encoderValues,
      Option.map_some', Option.getD_some, Option.some.injEq]
    split_ifs <;> rfl
  · simp [h1]

/-! The loop over the bindings. -/

theorem updateDataFrom_not_mem (s : VREPSimulationImpl) (rest : List Nat) (r0 : Nat)
    (h : r0 ∉ rest) :
    ∀ (i jQi : Nat) (c : MCGlobalController),
      (updateDataFrom s rest i jQi c).robots[r0]? = c.robots[r0]? ∧
      (updateDataFrom s rest i jQi c).realRobots[r0]? = c.realRobots[r0]? := by
  induction rest with
  | nil => intro i jQi c; exact ⟨rfl, rfl⟩
  | cons r rest ih =>
    intro i jQi c
    have hne : r0 ≠ r := fun e => h (e ▸ List.mem_cons_self _ _)
    have hrest : r0 ∉ rest := fun e => h (List.mem_cons_of_mem _ e)
    unfold updateDataFrom
    rw [(ih hrest _ _ _).1, (ih hrest _ _ _).2, updateRobot_robots_ne s i r jQi c r0 hne,
      updateRobot_realRobots_ne s i r jQi c r0 hne]
    exact ⟨rfl, rfl⟩

/-- The joint counts after the update of one robot are those before it. -/
theorem updateRobot_jointCount_fun (s : VREPSimulationImpl) (i r jQi : Nat)
    (c : MCGlobalController) :
    jointCount (updateRobot s i r jQi c) = jointCount c :=
  funext (updateRobot_jointCount s i r jQi c)

/-- What the loop leaves in the robot of the binding at position `p` of the bindings
still to visit, when no later binding names the same robot. -/
theorem updateDataFrom_encoderValues (s : VREPSimulationImpl) (rest : List Nat) :
    ∀ (i jQi : Nat) (c : MCGlobalController),
      (∀ r ∈ rest, r < c.robots.length ∧ r < c.realRobots.length) →
      ∀ (p : Nat) (hp : p < rest.length), rest[p] ∉ rest.drop (p + 1) →
        ((updateDataFrom s rest i jQi c).robots[rest[p]]?).map Robot.encoderValues
          = some (readSlice s.jQs (jQi + ((rest.map (jointCount c)).take p).sum)
              (jointCount c rest[p])) ∧
        ((updateDataFrom s rest i jQi c).realRobots[rest[p]]?).map Robot.encoderValues
          = some (readSlice s.jQs (jQi + ((rest.map (jointCount c)).take p).sum)
              (jointCount c rest[p])) ∧
        ((updateDataFrom s rest i jQi c).robots[rest[p]]?).map Robot.jointTorques
          = some s.jTorques := by
  induction rest with
  | nil => intro i jQi c _ p hp; simp at hp
  | cons r rest ih =>
    intro i jQi c hv p hp hlast
    have hr := hv r (List.mem_cons_self _ _)
    unfold updateDataFrom
    cases p with
    | zero =>
      have hnot : r ∉ rest := by simpa using hlast
      have hkeep := updateDataFrom_not_mem s rest r hnot (i + 1) (jQi + jointCount c r)
        (updateRobot s i r jQi c)
      have henc := updateRobot_encoderValues s i r jQi c hr.1 hr.2
      simp only [List.getElem_cons_zero, List.take_zero, List.sum_nil, Nat.add_zero]
      rw [hkeep.1, hkeep.2]
      exact henc
    | succ p =>
      have hp2 : p < rest.length := by simpa using hp
      have hlast2 : rest[p] ∉ rest.drop (p + 1) := by simpa using hlast
      have hv2 : ∀ x ∈ rest, x < (updateRobot s i r jQi c).robots.length ∧
          x < (updateRobot s i r jQi c).realRobots.length := by
        intro x hx
        rw [updateRobot_robots_length, updateRobot_realRobots_length]
        exact hv x (List.mem_cons_of_mem _ hx)
      have h := ih (i + 1) (jQi + jointCount c r) (updateRobot s i r jQi c) hv2 p hp2 hlast2
      rw [updateRobot_jointCount_fun] at h
      simp only [List.getElem_cons_succ, List.map_cons, List.take_succ_cons, List.sum_cons]
      rw [← Nat.add_assoc]
      exact h

/-! Sums of joint counts. -/

theorem sum_take_succ_le (l : List Nat) :
    ∀ i (hi : i < l.length), (l.take i).sum + l[i] ≤ l.sum := by
  induction l with
  | nil => intro i hi; simp at hi
  | cons a l ih =>
    intro i hi
    cases i with
    | zero => simp
    | succ i =>
      have hi2 : i < l.length := by simpa using hi
      have := ih i hi2
      simp only [List.take_succ_cons, List.sum_cons, List.getElem_cons_succ]
      omega

/-- The sum of the first `i + 1` numbers is at most the sum of the first `j`, for `i <
j`. -/
theorem sum_take_succ_le_sum_take (l : List Nat) :
    ∀ i j (hi : i < l.length), i < j → (l.take i).sum + l[i] ≤ (l.take j).sum := by
  induction l with
  | nil => intro i j hi; simp at hi
  | cons a l ih =>
    intro i j hi hij
    cases j with
    | zero => omega
    | succ j =>
      cases i with
      | zero => simp
      | succ i =>
        have hi2 : i < l.length := by simpa using hi
        have := ih i j hi2 (by omega)
        simp only [List.take_succ_cons, List.sum_cons, List.getElem_cons_succ]
        omega

/-- The joint count of binding `i` is that of the robot it names. -/
theorem jointCounts_getD (s : VREPSimulationImpl) (i : Nat) (hi : i < s.rIdx.length) :
    (jointCounts s).getD i 0 = jointCount s.controller s.rIdx[i] := by
  simp [jointCounts, List.getD_eq_getElem?_getD, hi]

/-- C5: when the bindings name robots of the controller and the length of `jQs` is the
sum of their joint counts, `updateData` leaves in the robot of binding `i`, and in its
real-robot copy, the encoder values `jQs[off .. off + n)`, where `n` is the joint count
of that robot and `off` the sum of the joint counts of the bindings before it, provided
no later binding names the same robot again (so for every binding when the bound robots
are distinct); these are `n` values, the range ends within `jQs`, and the range of every
earlier binding ends where or before this one starts. -/
theorem updateData_encoder_slices (s : VREPSimulationImpl)
    (hv : ∀ r ∈ s.rIdx, r < s.controller.robots.length ∧ r < s.controller.realRobots.length)
    (hlen : s.jQs.length = (jointCounts s).sum) (i : Nat) (hi : i < s.rIdx.length)
    (hlast : s.rIdx[i] ∉ s.rIdx.drop (i + 1)) :
    ((updateData s).controller.robots[s.rIdx[i]]?).map Robot.encoderValues
      = some ((s.jQs.drop ((jointCounts s).take i).sum).take ((jointCounts s).getD i 0)) ∧
    ((updateData s).controller.realRobots[s.rIdx[i]]?).map Robot.encoderValues
      = some ((s.jQs.drop ((jointCounts s).take i).sum).take ((jointCounts s).getD i 0)) ∧
    ((s.jQs.drop ((jointCounts s).take i).sum).take ((jointCounts s).getD i 0)).length
      = (jointCounts s).getD i 0 ∧
    ((jointCounts s).take i).sum + (jointCounts s).getD i 0 ≤ s.jQs.length ∧
    ∀ i0, i0 < i →
      ((jointCounts s).take i0).sum + (jointCounts s).getD i0 0
        ≤ ((jointCounts s).take i).sum := by
  have hcl : i < (jointCounts s).length := by simpa [jointCounts] using hi
  have hget : (jointCounts s).getD i 0 = (jointCounts s)[i] := by
    simp [List.getD_eq_getElem?_getD, hcl]
  have hbound : ((jointCounts s).take i).sum + (jointCounts s).getD i 0 ≤ s.jQs.length := by
    rw [hlen, hget]
    exact sum_take_succ_le (jointCounts s) i hcl
  have h := updateDataFrom_encoderValues s s.rIdx 0 0 s.controller hv i hi hlast
  rw [Nat.zero_add] at h
  have hslice := readSlice_eq_take_drop s.jQs ((jointCounts s).take i).sum
    ((jointCounts s).getD i 0) hbound
  rw [jointCounts_getD s i hi] at hslice hbound
  rw [jointCounts_getD s i hi]
  refine ⟨?_, ?_, ?_, hbound, ?_⟩
  · rw [← hslice]; exact h.1
  · rw [← hslice]; exact h.2.1
  · rw [← hslice]; exact readSlice_length _ _ _
  · intro i0 h0
    have h0l : i0 < (jointCounts s).length := by omega
    have hget0 : (jointCounts s).getD i0 0 = (jointCounts s)[i0] := by
      simp [List.getD_eq_getElem?_getD, h0l]
    rw [hget0]
    exact sum_take_succ_le_sum_take (jointCounts s) i0 i h0l h0

/-- With robots of 6 and 3 joints the second robot receives the positions of indices 6,
7 and 8. -/
theorem updateData_encoder_slices_witness :
    (∀ r ∈ sliceExample.rIdx,
      r < sliceExample.controller.robots.length ∧
        r < sliceExample.controller.realRobots.length) ∧
    sliceExample.jQs.length = (jointCounts sliceExample).sum ∧
    sliceExample.rIdx = [0, 1] ∧ (1 : Nat) ∉ sliceExample.rIdx.drop (1 + 1) ∧
    jointCounts sliceExample = [6, 3] ∧
    ((updateData sliceExample).controller.robots[1]?).map Robot.encoderValues
      = some [6, 7, 8] ∧
    ((updateData sliceExample).controller.realRobots[1]?).map Robot.encoderValues
      = some [6, 7, 8] :=
  ⟨by decide, by decide, by decide, by decide, by decide,
    (updateData_encoder_slices sliceExample (by decide) (by decide) 1 (by decide)
      (by decide)).1,
    (updateData_encoder_slices sliceExample (by decide) (by decide) 1 (by decide)
      (by decide)).2.1⟩

/-- C10: with two bound robots of 6 and 3 joints and nine torques returned by the
simulator, `updateData` leaves all nine torques in both robots, while the encoder values
of the same robots are the slices of 6 and of 3 values. -/
theorem updateData_jointTorques_not_sliced :
    jointCounts sliceExample = [6, 3] ∧
    sliceExample.jTorques = [10, 11, 12, 13, 14, 15, 16, 17, 18] ∧
    (updateData sliceExample).controller.robots.map Robot.jointTorques
      = [[10, 11, 12, 13, 14, 15, 16, 17, 18], [10, 11, 12, 13, 14, 15, 16, 17, 18]] ∧
    (updateData sliceExample).controller.robots.map Robot.encoderValues
      = [[0, 1, 2, 3, 4, 5], [6, 7, 8]] := by
  refine ⟨by decide, rfl, rfl, rfl⟩

/-- C7: with a configured simulation timestep of 0.01 and the encoder sequence 0, 0.1 of
a joint, the first `updateData` (the robot held no encoder values) writes the velocity 0
and the second writes the velocity 20, which is the difference divided by 0.005; the
difference divided by the configured timestep is 10. -/
theorem updateData_velocity_fixed_divisor :
    velocityExample.simulationTimestep = 0.01 ∧
    velocityFirstTick.controller.realRobots.map (fun r => (r.encoderValues, r.mbc.alpha))
      = [([0], [[], [0]])] ∧
    velocitySecondTick.controller.realRobots.map (fun r => (r.encoderValues, r.mbc.alpha))
      = [([0.1], [[], [20]])] ∧
    ((0.1 : ℚ) - 0) / velocityExample.simulationTimestep = 10 ∧
    ((0.1 : ℚ) - 0) / 0.005 = 20 := by
  refine ⟨rfl, by decide!, by decide!, ?_, by norm_num⟩
  simp only [velocityExample, exampleSimulation]
  norm_num

/-! ## Startup -/

/-- C4: `main` ends with the error of the control-mode validation, having constructed
no simulation and taken no step on it, exactly when `VelocityControl` and
`TorqueControl` are both true; when at most one of them is true the validation succeeds
and `main` goes on to construct the simulation, start it and run the loop. -/
theorem main_rejects_both_control_modes (config : VREPSimulationConfiguration)
    (vrep_c : VREPSection) (timestep : ℚ) :
    (((readEntries config vrep_c timestep).velocityControl = true ∧
        (readEntries config vrep_c timestep).torqueControl = true) ↔
      main config vrep_c timestep =
        ([], Except.error "Only one of VelocityControl or TorqueControl must be true")) ∧
    (¬ ((readEntries config vrep_c timestep).velocityControl = true ∧
        (readEntries config vrep_c timestep).torqueControl = true) ↔
      validateControlMode (readEntries config vrep_c timestep) = Except.ok ()) ∧
    (¬ ((readEntries config vrep_c timestep).velocityControl = true ∧
        (readEntries config vrep_c timestep).torqueControl = true) ↔
      main config vrep_c timestep =
        ([MainStep.construct (readExtras (readEntries config vrep_c timestep) vrep_c),
          MainStep.startSimulation, MainStep.startCli, MainStep.simThread, MainStep.joinCli],
          Except.ok 0)) := by
  by_cases h : (readEntries config vrep_c timestep).velocityControl = true ∧
      (readEntries config vrep_c timestep).torqueControl = true
  · have hv : validateControlMode (readEntries config vrep_c timestep)
        = Except.error "Only one of VelocityControl or TorqueControl must be true" := by
      simp [validateControlMode, h.1, h.2]
    simp [main, hv, h]
  · have hv : validateControlMode (readEntries config vrep_c timestep) = Except.ok () := by
      unfold validateControlMode
      rw [if_neg]
      simpa using h
    simp [main, hv, h]

/-! ## The frame skip -/

/-- The number 1 is a double. -/
theorem toDouble_one : toDouble 1 = 1 := by decide!

/-- When the simulation timestep is the controller timestep, as `main` arranges for a
negative `SimulationTimestep`, the frame skip is 1. -/
theorem computeFrameskip_self (ct : ℚ) (h : toDouble ct ≠ 0) :
    computeFrameskip ct ct = some 1 := by
  unfold computeFrameskip
  rw [if_neg h, div_self h, toDouble_one]
  norm_num

/-- The frame skip at some timesteps: 2 for 0.01 over 0.005, 1 for 0.01 over a negative
configured value, 1 for 0.005 over 0.01 (the quotient is one half), and 1 for 0.009 over
0.006, whose double quotient is just below one and a half. -/
theorem computeFrameskip_examples :
    computeFrameskip 0.01 (defaultTimestep 0.005 0.01) = some 2 ∧
    computeFrameskip 0.01 (defaultTimestep (-1) 0.01) = some 1 ∧
    computeFrameskip 0.005 (defaultTimestep 0.01 0.005) = some 1 ∧
    computeFrameskip 0.009 (defaultTimestep 0.006 0.009) = some 1 ∧
    toDouble (toDouble 0.009 / toDouble 0.006) < 3 / 2 := by
  refine ⟨by decide!, by decide!, by decide!, by decide!, by decide!⟩

/-- C8: with a controller timestep of 0.01 and a configured `SimulationTimestep` of
0.05, a positive value, `main` keeps the value and goes on to the end, and the
constructor computes a frame skip of 0, with which the first call of
`nextSimulationStep` takes the iteration counter modulo 0. -/
theorem create_frameskip_zero :
    0 < (exampleController 0.01).timestep ∧
    (0 : ℚ) < 0.05 ∧
    (readEntries exampleConfiguration (exampleSection (some 0.05) none none)
      (exampleController 0.01).timestep).simulationTimestep = 0.05 ∧
    (main exampleConfiguration (exampleSection (some 0.05) none none)
      (exampleController 0.01).timestep).2 = Except.ok 0 ∧
    (create (exampleController 0.01)
      (readExtras
        (readEntries exampleConfiguration (exampleSection (some 0.05) none none)
          (exampleController 0.01).timestep)
        (exampleSection (some 0.05) none none))).map (fun sim => (sim.iter, sim.frameskip))
      = some (0, 0) := by
  refine ⟨by decide!, by decide!, by decide!, rfl, by decide!⟩

/-- At frame skip 2, call number 4 runs the controller exactly when 2 divides 4, and
call number 5 exactly when 2 divides 5. -/
theorem nextSimulationStep_control_tick_iff_witness :
    (exampleSimulation [] 0.005 2).iter = 0 ∧ 1 ≤ (exampleSimulation [] 0.005 2).frameskip ∧
    (Call.controllerRun ∈
        (nextSimulationStep
          (stateBefore (fun _ => exampleInput 0 [] []) (exampleSimulation [] 0.005 2) 4)
          (exampleInput 0 [] [])).2 ↔ (exampleSimulation [] 0.005 2).frameskip ∣ 4) ∧
    (Call.controllerRun ∈
        (nextSimulationStep
          (stateBefore (fun _ => exampleInput 0 [] []) (exampleSimulation [] 0.005 2) 5)
          (exampleInput 0 [] [])).2 ↔ (exampleSimulation [] 0.005 2).frameskip ∣ 5) :=
  ⟨rfl, by decide,
    (nextSimulationStep_control_tick_iff (fun _ => exampleInput 0 [] [])
      (exampleSimulation [] 0.005 2) rfl (by decide) 4).2.1,
    (nextSimulationStep_control_tick_iff (fun _ => exampleInput 0 [] [])
      (exampleSimulation [] 0.005 2) rfl (by decide) 5).2.1⟩

/-- An impulse of 10 along the third axis at a controller timestep of 0.01 is applied as
a force of 1000. -/
theorem applyImpact_flush_once_witness :
    (exampleSimulation [] 0.005 2).external_force.entries = [] ∧
    (exampleSimulation [] 0.005 2).impact_force.entries = [] ∧
    (flush (applyImpact (exampleSimulation [] 0.005 2) "body_respondable" exampleForce).1).2
      = [Call.addForce "body_respondable" ⟨⟨0, 0, 0⟩, ⟨0, 0, 1000⟩⟩] :=
  ⟨rfl, rfl, by
    have h := (applyImpact_flush_once (exampleSimulation [] 0.005 2) "body_respondable"
      exampleForce rfl rfl).2.1
    rw [h]
    decide!⟩

/-- Ten turns of the loop at frame skip 2 invoke `controller.run()` five times. -/
theorem simThread_run_count_witness :
    (exampleSimulation [] 0.005 2).iter = 0 ∧ 1 ≤ (exampleSimulation [] 0.005 2).frameskip ∧
    (∀ a ∈ List.replicate 10 (⟨exampleInput 0 [] [], false, []⟩ : Advance),
      a.stepByStep = false) ∧
    (simThread (exampleSimulation [] 0.005 2)
      (List.replicate 10 ⟨exampleInput 0 [] [], false, []⟩)).2.count Call.controllerRun = 5 :=
  ⟨rfl, by decide, fun a ha => by rw [List.eq_of_mem_replicate ha],
    (simThread_run_count (exampleSimulation [] 0.005 2)
      (List.replicate 10 ⟨exampleInput 0 [] [], false, []⟩) rfl (by decide)
      (fun a ha => by rw [List.eq_of_mem_replicate ha])).1⟩

end McVrep
